import Mathlib

/-!
Verification of the resilient paginated export pipeline of
`supabase_automation.py` (functions `export_database_paginated`,
`upload_to_drive`, `weekly_backup`).

The Python code is shallowly embedded: the table store is modelled as a
list of rows sorted by the key column, a batch fetch returns the rows
whose key is strictly greater than the cursor (limited to the page
size), and the environment decides, per fetch attempt, whether the
`execute()` call raises.  File I/O is modelled by the list of CSV lines
written, plus the returned filename (the code renames the file with a
`_PARTIAL` suffix when an exception escapes the export loop while the
file already exists).
-/

namespace SupabaseAutomation

/-- A cell value: a JSON value of a row as seen by the Python code.
Integers, strings and `null` cover everything the claims need. -/
inductive Value where
  | int (n : Int)
  | str (s : String)
  | null
deriving DecidableEq

/-- A row, as returned by the Supabase client: an ordered mapping from
column name to value (Python `dict` preserves insertion order). -/
abbrev Row := List (String × Value)

/-- How Python's `csv` writer renders a value as text (`None` becomes
the empty field). -/
def Value.render : Value → String
  | .int n => toString n
  | .str s => s
  | .null => ""

/-- The store's strict greater-than filter on values, as used by the
query `query.gt(id_field, last_id)`.  Comparisons across different
types never succeed (the placeholder string cursor matches no integer
key). -/
def valueGt : Value → Value → Bool
  | .int a, .int b => decide (b < a)
  | .str a, .str b => decide (b < a)
  | _, _ => false

/-- The ordered list of column names of a row (`list(row.keys())`). -/
def rowKeys (r : Row) : List String := r.map Prod.fst

/-- One CSV data record:
`row_values = [row.get(header, "") for header in headers]`.
Missing columns render as the empty string, columns absent from the
header are dropped. -/
def recordOf (headers : List String) (r : Row) : List String :=
  headers.map (fun h => ((r.lookup h).getD (.str "")).render)

/-- The key-column choice of `export_database_paginated` (lines
179-186): `"id"` when present, else the first of `"uuid"`,
`"primary_key"`, `"key"`, `headers[0]` contained in the header. -/
def pick_id_field (headers : List String) : String :=
  if headers.contains "id" then "id"
  else
    match (["uuid", "primary_key", "key"] ++ headers.take 1).find?
        (fun c => headers.contains c) with
    | some f => f
    | none => "id"

/-- Whether a row passes the cursor predicate of one batch query:
all rows when the cursor is unset, otherwise key strictly greater
than the cursor value. -/
def passCursor (idField : String) (cursor : Option Value) (r : Row) : Bool :=
  match cursor with
  | none => true
  | some c => valueGt ((r.lookup idField).getD .null) c

/-- One batch fetch against the table store (the external collaborator
of spec section 4.2): the rows passing the cursor predicate, in table
order (the table is kept sorted by the key column), limited to the
page size. -/
def fetchPage (db : List Row) (idField : String) (cursor : Option Value)
    (pageSize : Nat) : List Row :=
  (db.filter (passCursor idField cursor)).take pageSize

/-- The integer key of a row under the chosen key column (0 when the
column is missing or not an integer; the theorems that use it also
assume the column is an integer on every row). -/
def ikey (idField : String) (r : Row) : Int :=
  match r.lookup idField with
  | some (.int n) => n
  | _ => 0

/-- Strict key order between rows. -/
abbrev keyLt (idField : String) (a b : Row) : Prop :=
  ikey idField a < ikey idField b

/-- Checkable form of "the key column holds an integer". -/
def isIntVal : Option Value → Bool
  | some (.int _) => true
  | _ => false

/-- The mutable state of the `while` loop of
`export_database_paginated` (lines 190-252), plus a ghost
`cursorTrace` recording the cursor used by every issued fetch
attempt (including failing ones). -/
structure LoopState where
  lastId : Option Value
  page : Nat
  rowsExported : Nat
  records : List (List String)
  moreData : Bool
  attempt : Nat
  cursorTrace : List (Option Value)
deriving DecidableEq

/-- The environment of one export: the table, the fixed page size, and
which of the outside calls fail.  `batchFails n` says whether the
`n`-th issued `execute()` of the pagination loop raises. -/
structure ExportEnv where
  tableName : String
  date : String
  db : List Row
  pageSize : Nat
  firstRowFails : Bool
  countFails : Bool
  batchFails : Nat → Bool

/-- How the export loop ends: normal exit of the `while`, an exception
escaping it (the `raise` of the zero-progress branch, line 252), or
model fuel exhaustion (the Python loop can run forever under a
schedule of endless failures). -/
inductive LoopOut where
  | finished (st : LoopState)
  | raised (st : LoopState)
  | fuelOut
deriving DecidableEq

/-- Failure branch with prior progress (lines 241-249): `page += 1`;
keep `last_id` when known, else substitute
`f"approximate_batch_{page}"`. -/
def degradeState (st : LoopState) : LoopState :=
  { st with
      page := st.page + 1,
      lastId :=
        match st.lastId with
        | some v => some v
        | none => some (.str ("approximate_batch_" ++ toString (st.page + 1))),
      attempt := st.attempt + 1,
      cursorTrace := st.cursorTrace ++ [st.lastId] }

/-- State at the `raise` of the zero-progress failure branch
(lines 250-252): only the ghost bookkeeping advances. -/
def abortState (st : LoopState) : LoopState :=
  { st with attempt := st.attempt + 1, cursorTrace := st.cursorTrace ++ [st.lastId] }

/-- Empty batch (lines 210-212): `more_data = False`. -/
def stopState (st : LoopState) : LoopState :=
  { st with
      moreData := false,
      attempt := st.attempt + 1,
      cursorTrace := st.cursorTrace ++ [st.lastId] }

/-- Successful non-empty batch (lines 213-234): append the rendered
records, set `last_id = rows[-1].get(id_field)`, update the
counters. -/
def advanceState (headers : List String) (idField : String) (st : LoopState)
    (rows : List Row) (hrows : rows ≠ []) : LoopState :=
  { st with
      records := st.records ++ rows.map (recordOf headers),
      lastId := (rows.getLast hrows).lookup idField,
      rowsExported := st.rowsExported + rows.length,
      page := st.page + 1,
      attempt := st.attempt + 1,
      cursorTrace := st.cursorTrace ++ [st.lastId] }

/-- The `while more_data and rows_exported < total_count` loop of
`export_database_paginated`, fuelled. -/
def exportLoop (env : ExportEnv) (idField : String) (headers : List String)
    (totalCount : Nat) : Nat → LoopState → LoopOut
  | 0, _ => .fuelOut
  | fuel + 1, st =>
    if st.moreData = true ∧ st.rowsExported < totalCount then
      if env.batchFails st.attempt = true then
        if 0 < st.rowsExported then
          exportLoop env idField headers totalCount fuel (degradeState st)
        else
          .raised (abortState st)
      else
        if hrows : fetchPage env.db idField st.lastId env.pageSize = [] then
          exportLoop env idField headers totalCount fuel (stopState st)
        else
          exportLoop env idField headers totalCount fuel
            (advanceState headers idField st
              (fetchPage env.db idField st.lastId env.pageSize) hrows)
    else .finished st

/-- Header inferred from the first row ever seen
(`headers = list(first_row.data[0].keys())`). -/
def headersOf (env : ExportEnv) : List String := rowKeys (env.db.headD [])

/-- The key column chosen for this export. -/
def idFieldOf (env : ExportEnv) : String := pick_id_field (headersOf env)

/-- The initial loop state (`last_id = None`, `page = 0`,
`rows_exported = 0`, `more_data = True`). -/
def initState : LoopState :=
  { lastId := none, page := 0, rowsExported := 0, records := [],
    moreData := true, attempt := 0, cursorTrace := [] }

/-- The whole pagination loop of one export, from the initial state;
the total count is the exact row count of the table. -/
def exportRun (env : ExportEnv) (fuel : Nat) : LoopOut :=
  exportLoop env (idFieldOf env) (headersOf env) env.db.length fuel initState

/-- The ghost trace of cursors issued by the run. -/
def loopTrace : LoopOut → List (Option Value)
  | .finished st => st.cursorTrace
  | .raised st => st.cursorTrace
  | .fuelOut => []

/-- What one export returns to its caller: a filename together with
the CSV lines written (header line first), or a propagated
exception. -/
inductive ExportOutcome where
  | ok (filename : String) (lines : List (List String))
  | err
  | fuelOut
deriving DecidableEq

/-- `f"{table_name}_{date}.csv"`. -/
def completeFilename (tableName date : String) : String :=
  tableName ++ "_" ++ date ++ ".csv"

/-- `f"{table_name}_{date}_PARTIAL.csv"`: the marker the outer
exception handler renames the file to. -/
def flaggedFilename (tableName date : String) : String :=
  tableName ++ "_" ++ date ++ "_PARTIAL.csv"

/-- Lines 253-267: a normal loop exit returns the plain filename; an
exception escaping the loop is caught, and since the output file
exists (it was created with its header before the loop), the file is
renamed with the `_PARTIAL` marker and that name is returned. -/
def finishLoop (env : ExportEnv) (headers : List String) : LoopOut → ExportOutcome
  | .finished st => .ok (completeFilename env.tableName env.date) (headers :: st.records)
  | .raised st => .ok (flaggedFilename env.tableName env.date) (headers :: st.records)
  | .fuelOut => .fuelOut

/-- `export_database_paginated` (lines 140-267).  The first-row probe
and the row-count call happen before the output file is created, so
their exceptions propagate (`raise` at line 267 with no file); an
empty table yields a header-only file with the minimal header
`["id"]`. -/
def export_database_paginated (env : ExportEnv) (fuel : Nat) : ExportOutcome :=
  if env.firstRowFails = true then .err
  else if env.db = [] then
    .ok (completeFilename env.tableName env.date) [["id"]]
  else if env.countFails = true then .err
  else finishLoop env (headersOf env) (exportRun env fuel)

/-- Environment of one `upload_to_drive` call: whether decoding and
materializing the credentials fails, and whether the Drive upload
call raises. -/
structure UploadEnv where
  decodeFails : Bool
  uploadFails : Bool
deriving DecidableEq

/-- Outcome of `upload_to_drive`: normal return or exception, in both
cases recording whether the local `credentials.json` and the local
data file are still on disk afterwards. -/
inductive UploadOutcome where
  | ok (credsOnDisk dataOnDisk : Bool)
  | err (credsOnDisk dataOnDisk : Bool)
deriving DecidableEq

/-- `upload_to_drive` (lines 269-302): decode and write
`credentials.json`, run the upload, then — only on the success path —
remove `credentials.json` and the uploaded data file.  No
`try`/`finally` protects the cleanup. -/
def upload_to_drive (env : UploadEnv) : UploadOutcome :=
  if env.decodeFails = true then .err false true
  else if env.uploadFails = true then .err true true
  else .ok false false

/-- Whether the upload call ended in an exception. -/
def uploadRaised : UploadOutcome → Bool
  | .ok _ _ => false
  | .err _ _ => true

/-- Whether `credentials.json` is still on disk afterwards. -/
def credsOnDiskAfter : UploadOutcome → Bool
  | .ok c _ => c
  | .err c _ => c

/-- Whether the exported data file is still on disk afterwards. -/
def dataOnDiskAfter : UploadOutcome → Bool
  | .ok _ d => d
  | .err _ d => d

/-- Whether an export call ended in an exception (fuel exhaustion is
treated as not returning normally). -/
def outcomeRaised : ExportOutcome → Bool
  | .ok _ _ => false
  | .err => true
  | .fuelOut => true

/-- Which steps of `weekly_backup` were reached, and whether the run
re-raised. -/
structure WeeklyTrace where
  leadsExportAttempted : Bool
  orgsExportAttempted : Bool
  leadsUploadAttempted : Bool
  orgsUploadAttempted : Bool
  raised : Bool
deriving DecidableEq

/-- `weekly_backup` (lines 304-330): export `leads_db`, export
`orgs_db`, upload the first file, upload the second file — all inside
one `try` whose handler re-raises, so the first exception stops the
remaining steps. -/
def weekly_backup (leadsEnv orgsEnv : ExportEnv) (leadsUp orgsUp : UploadEnv)
    (fuel : Nat) : WeeklyTrace :=
  if outcomeRaised (export_database_paginated leadsEnv fuel) = true then
    ⟨true, false, false, false, true⟩
  else if outcomeRaised (export_database_paginated orgsEnv fuel) = true then
    ⟨true, true, false, false, true⟩
  else if uploadRaised (upload_to_drive leadsUp) = true then
    ⟨true, true, true, false, true⟩
  else
    ⟨true, true, true, true, uploadRaised (upload_to_drive orgsUp)⟩

/-- Sample rows and tables used by the concrete runs below. -/
def row1 : Row := [("id", Value.int 1)]

def row2 : Row := [("id", Value.int 2)]

def row3 : Row := [("id", Value.int 3)]

def db3 : List Row := [row1, row2, row3]

/-- An export environment over a given table with everything outside
the batch schedule succeeding. -/
def mkEnv (db : List Row) (pageSize : Nat) (batchFails : Nat → Bool) : ExportEnv :=
  { tableName := "orgs_db", date := "2026-10-12", db := db, pageSize := pageSize,
    firstRowFails := false, countFails := false, batchFails := batchFails }

/-- Three rows, page size one, the second issued fetch fails. -/
def envC2 : ExportEnv := mkEnv db3 1 (fun n => n == 1)

/-- One row, every batch fetch fails (so the very first one does). -/
def envC3 : ExportEnv := mkEnv [row1] 100 (fun _ => true)

/-- An export whose first-row probe raises. -/
def envBadExport : ExportEnv :=
  { mkEnv db3 100 (fun _ => false) with firstRowFails := true }

/-- A fully healthy small export. -/
def envGoodExport : ExportEnv := mkEnv db3 100 (fun _ => false)

/-- A healthy upload environment. -/
def upOk : UploadEnv := ⟨false, false⟩

/-- An export whose row-count call raises. -/
def envC8 : ExportEnv := { mkEnv [row1] 100 (fun _ => false) with countFails := true }

/-- The 250-row table of the spec's concrete scenario, keys 1..250. -/
def db250 : List Row := (List.range 250).map (fun k => [("id", Value.int ((k : Int) + 1))])

/-- The spec's concrete scenario: 250 rows, page size 100, no
failures. -/
def env250 : ExportEnv := mkEnv db250 100 (fun _ => false)

/-- A healthy export over `db3` whose page size is at most the table
size. -/
def envC1w : ExportEnv := mkEnv db3 2 (fun _ => false)

/-- The loop state of `envC2`'s export right after its first
successful batch (one row written, cursor at key 1), at which the
second fetch attempt is about to fail. -/
def stC2 : LoopState :=
  { lastId := some (Value.int 1), page := 1, rowsExported := 1,
    records := [["1"]], moreData := true, attempt := 1, cursorTrace := [none] }

theorem exportLoop_zero (env : ExportEnv) (idField : String) (headers : List String)
    (totalCount : Nat) (st : LoopState) :
    exportLoop env idField headers totalCount 0 st = .fuelOut := rfl

theorem exportLoop_succ (env : ExportEnv) (idField : String) (headers : List String)
    (totalCount fuel : Nat) (st : LoopState) :
    exportLoop env idField headers totalCount (fuel + 1) st =
      if st.moreData = true ∧ st.rowsExported < totalCount then
        if env.batchFails st.attempt = true then
          if 0 < st.rowsExported then
            exportLoop env idField headers totalCount fuel (degradeState st)
          else
            .raised (abortState st)
        else
          if hrows : fetchPage env.db idField st.lastId env.pageSize = [] then
            exportLoop env idField headers totalCount fuel (stopState st)
          else
            exportLoop env idField headers totalCount fuel
              (advanceState headers idField st
                (fetchPage env.db idField st.lastId env.pageSize) hrows)
      else .finished st := rfl

theorem completeFilename_ne_flaggedFilename (t d : String) :
    completeFilename t d ≠ flaggedFilename t d := by
  intro h
  have hlen := congrArg String.length h
  have h1 : ("_" : String).length = 1 := rfl
  have h4 : (".csv" : String).length = 4 := rfl
  have h12 : ("_PARTIAL.csv" : String).length = 12 := rfl
  simp only [completeFilename, flaggedFilename, String.length_append, h1, h4, h12] at hlen
  omega

theorem recordOf_length (headers : List String) (r : Row) :
    (recordOf headers r).length = headers.length := by
  simp [recordOf]

theorem ikey_le_getLast (f : String) :
    ∀ (l : List Row) (hl : l ≠ []), l.Pairwise (keyLt f) →
      ∀ r ∈ l, ikey f r ≤ ikey f (l.getLast hl) := by
  intro l
  induction l with
  | nil => intro hl; exact absurd rfl hl
  | cons a t ih =>
    intro hl hpw r hr
    rw [List.pairwise_cons] at hpw
    obtain ⟨ha, hpw'⟩ := hpw
    cases t with
    | nil =>
      have : r = a := by simpa using hr
      subst this
      exact le_refl _
    | cons b t' =>
      have hne : (b :: t') ≠ [] := by simp
      rw [List.getLast_cons hne]
      rcases List.mem_cons.mp hr with rfl | hr'
      · exact le_of_lt (ha _ (List.getLast_mem hne))
      · exact ih hne hpw' r hr'

theorem exportLoop_records_mono (env : ExportEnv) (idField : String)
    (headers : List String) (totalCount : Nat) :
    ∀ (fuel : Nat) (st st' : LoopState),
      exportLoop env idField headers totalCount fuel st = .finished st' →
      st.records.length ≤ st'.records.length := by
  intro fuel
  induction fuel with
  | zero =>
    intro st st' h
    rw [exportLoop_zero] at h
    cases h
  | succ fuel ih =>
    intro st st' h
    rw [exportLoop_succ] at h
    by_cases hc : st.moreData = true ∧ st.rowsExported < totalCount
    · rw [if_pos hc] at h
      by_cases hb : env.batchFails st.attempt = true
      · rw [if_pos hb] at h
        by_cases hp : 0 < st.rowsExported
        · rw [if_pos hp] at h
          simpa [degradeState] using ih _ _ h
        · rw [if_neg hp] at h
          cases h
      · rw [if_neg hb] at h
        by_cases hr : fetchPage env.db idField st.lastId env.pageSize = []
        · rw [dif_pos hr] at h
          simpa [stopState] using ih _ _ h
        · rw [dif_neg hr] at h
          have hstep := ih _ _ h
          simp only [advanceState, List.length_append] at hstep
          omega
    · rw [if_neg hc] at h
      cases h
      exact le_refl _

theorem exportLoop_advance (env : ExportEnv) (idField : String)
    (headers : List String) (totalCount fuel : Nat) (st : LoopState)
    (hc : st.moreData = true ∧ st.rowsExported < totalCount)
    (hb : env.batchFails st.attempt = false)
    (rows : List Row) (hfetch : fetchPage env.db idField st.lastId env.pageSize = rows)
    (hne : rows ≠ []) :
    exportLoop env idField headers totalCount (fuel + 1) st =
      exportLoop env idField headers totalCount fuel
        (advanceState headers idField st rows hne) := by
  subst hfetch
  rw [exportLoop_succ, if_pos hc, if_neg (by simp [hb]), dif_neg hne]

theorem exportLoop_records_src (env : ExportEnv) (idField : String)
    (headers : List String) (totalCount : Nat) :
    ∀ (fuel : Nat) (st st' : LoopState),
      (exportLoop env idField headers totalCount fuel st = .finished st' ∨
       exportLoop env idField headers totalCount fuel st = .raised st') →
      ∀ q ∈ st'.records,
        q ∈ st.records ∨ ∃ r, r ∈ env.db ∧ q = recordOf headers r := by
  intro fuel
  induction fuel with
  | zero =>
    intro st st' h
    rw [exportLoop_zero] at h
    rcases h with h | h <;> cases h
  | succ fuel ih =>
    intro st st' h
    rw [exportLoop_succ] at h
    by_cases hc : st.moreData = true ∧ st.rowsExported < totalCount
    · rw [if_pos hc] at h
      by_cases hb : env.batchFails st.attempt = true
      · rw [if_pos hb] at h
        by_cases hp : 0 < st.rowsExported
        · rw [if_pos hp] at h
          intro q hq
          rcases ih _ _ h q hq with hmem | hsrc
          · exact Or.inl (by simpa [degradeState] using hmem)
          · exact Or.inr hsrc
        · rw [if_neg hp] at h
          rcases h with h | h
          · cases h
          · cases h
            intro q hq
            exact Or.inl (by simpa [abortState] using hq)
      · rw [if_neg hb] at h
        by_cases hr : fetchPage env.db idField st.lastId env.pageSize = []
        · rw [dif_pos hr] at h
          intro q hq
          rcases ih _ _ h q hq with hmem | hsrc
          · exact Or.inl (by simpa [stopState] using hmem)
          · exact Or.inr hsrc
        · rw [dif_neg hr] at h
          intro q hq
          rcases ih _ _ h q hq with hmem | hsrc
          · simp only [advanceState, List.mem_append] at hmem
            rcases hmem with hmem | hmem
            · exact Or.inl hmem
            · obtain ⟨r, hrmem, hrq⟩ := List.mem_map.mp hmem
              refine Or.inr ⟨r, ?_, hrq.symm⟩
              have hsub : fetchPage env.db idField st.lastId env.pageSize ⊆ env.db :=
                fun x hx =>
                  List.filter_subset' _ (List.take_subset _ _ hx)
              exact hsub hrmem
          · exact Or.inr hsrc
    · rw [if_neg hc] at h
      rcases h with h | h
      · cases h
        intro q hq
        exact Or.inl hq
      · cases h

theorem exportLoop_no_fail (env : ExportEnv) (idField : String) (headers : List String)
    (Hnf : ∀ n, env.batchFails n = false) (Hps : 1 ≤ env.pageSize)
    (Hkeys : ∀ r ∈ env.db, isIntVal (r.lookup idField) = true)
    (Hsorted : env.db.Pairwise (keyLt idField)) :
    ∀ (fuel : Nat) (done rest : List Row) (st : LoopState),
      env.db = done ++ rest →
      st.moreData = true →
      st.rowsExported = done.length →
      (∀ r ∈ rest, passCursor idField st.lastId r = true) →
      (∀ r ∈ done, passCursor idField st.lastId r = false) →
      rest.length < fuel →
      ∃ st', exportLoop env idField headers env.db.length fuel st = .finished st' ∧
        st'.records = st.records ++ rest.map (recordOf headers) := by
  intro fuel
  induction fuel with
  | zero => intro done rest st _ _ _ _ _ hf; omega
  | succ fuel ih =>
    intro done rest st hdb hmore hrows hpassR hpassD hf
    cases rest with
    | nil =>
      have hlen : env.db.length = done.length := by rw [hdb]; simp
      have hcond : ¬(st.moreData = true ∧ st.rowsExported < env.db.length) := by
        rintro ⟨-, hlt⟩
        rw [hlen] at hlt
        omega
      refine ⟨st, ?_, by simp⟩
      rw [exportLoop_succ, if_neg hcond]
    | cons r0 rest0 =>
      have hcond : st.moreData = true ∧ st.rowsExported < env.db.length := by
        refine ⟨hmore, ?_⟩
        rw [hdb, List.length_append, hrows]
        simp
      have hfetch : fetchPage env.db idField st.lastId env.pageSize =
          (r0 :: rest0).take env.pageSize := by
        unfold fetchPage
        rw [hdb, List.filter_append]
        have hfD : done.filter (passCursor idField st.lastId) = [] := by
          rw [List.filter_eq_nil_iff]
          intro a ha
          simp [hpassD a ha]
        have hfR : (r0 :: rest0).filter (passCursor idField st.lastId) = r0 :: rest0 :=
          List.filter_eq_self.mpr hpassR
        rw [hfD, hfR, List.nil_append]
      obtain ⟨ps0, hps⟩ : ∃ k, env.pageSize = k + 1 := ⟨env.pageSize - 1, by omega⟩
      have htk : (r0 :: rest0).take env.pageSize ≠ [] := by
        rw [hps, List.take_succ_cons]
        simp
      set tk := (r0 :: rest0).take env.pageSize with htkdef
      set dr := (r0 :: rest0).drop env.pageSize with hdrdef
      have htkdr : tk ++ dr = r0 :: rest0 := List.take_append_drop _ _
      have hlastMemTk : tk.getLast htk ∈ tk := List.getLast_mem htk
      have hsubTk : tk ⊆ r0 :: rest0 := by
        rw [htkdef]
        exact List.take_subset _ _
      have hlastMemRest : tk.getLast htk ∈ r0 :: rest0 := hsubTk hlastMemTk
      have hlastMemDb : tk.getLast htk ∈ env.db := by
        rw [hdb]
        exact List.mem_append_right _ hlastMemRest
      have hint : ∀ r ∈ env.db, ∃ n : Int, r.lookup idField = some (.int n) := by
        intro r hr
        have h := Hkeys r hr
        cases hlk : r.lookup idField with
        | none => rw [hlk] at h; simp [isIntVal] at h
        | some v =>
          cases v with
          | int n => exact ⟨n, rfl⟩
          | str s => rw [hlk] at h; simp [isIntVal] at h
          | null => rw [hlk] at h; simp [isIntVal] at h
      obtain ⟨k, hk⟩ := hint _ hlastMemDb
      have hikLast : ikey idField (tk.getLast htk) = k := by simp [ikey, hk]
      have hpassInt : ∀ r ∈ env.db,
          passCursor idField (some (.int k)) r = decide (k < ikey idField r) := by
        intro r hr
        obtain ⟨n, hn⟩ := hint r hr
        simp [passCursor, valueGt, hn, ikey]
      have hpwdb := Hsorted
      rw [hdb, List.pairwise_append] at hpwdb
      obtain ⟨hpwD, hpwR, hcross⟩ := hpwdb
      have hpwR2 : (tk ++ dr).Pairwise (keyLt idField) := by
        rw [htkdr]
        exact hpwR
      rw [List.pairwise_append] at hpwR2
      obtain ⟨hpwTk, hpwDr, hcross2⟩ := hpwR2
      have hstep := exportLoop_advance env idField headers env.db.length fuel st hcond
        (Hnf st.attempt) tk hfetch htk
      have hnewLast : (advanceState headers idField st tk htk).lastId = some (.int k) := by
        simp [advanceState, hk]
      have hdb2 : env.db = (done ++ tk) ++ dr := by
        rw [List.append_assoc, htkdr]
        exact hdb
      have hmore2 : (advanceState headers idField st tk htk).moreData = true := by
        simpa [advanceState] using hmore
      have hrows2 : (advanceState headers idField st tk htk).rowsExported
          = (done ++ tk).length := by
        simp [advanceState, hrows, List.length_append]
      have hmemDbRest : ∀ r ∈ r0 :: rest0, r ∈ env.db := by
        intro r hr
        rw [hdb]
        exact List.mem_append_right _ hr
      have hpassR2 : ∀ r ∈ dr,
          passCursor idField (advanceState headers idField st tk htk).lastId r = true := by
        intro r hr
        rw [hnewLast]
        have hrdb : r ∈ env.db := by
          refine hmemDbRest r ?_
          rw [← htkdr]
          exact List.mem_append_right _ hr
        rw [hpassInt r hrdb]
        have hlt : ikey idField (tk.getLast htk) < ikey idField r := hcross2 _ hlastMemTk _ hr
        rw [hikLast] at hlt
        simp only [decide_eq_true_eq]
        omega
      have hpassD2 : ∀ r ∈ done ++ tk,
          passCursor idField (advanceState headers idField st tk htk).lastId r = false := by
        intro r hr
        rw [hnewLast]
        rcases List.mem_append.mp hr with hrd | hrtk
        · have hrdb : r ∈ env.db := by
            rw [hdb]
            exact List.mem_append_left _ hrd
          rw [hpassInt r hrdb]
          have hlt : ikey idField r < ikey idField (tk.getLast htk) :=
            hcross _ hrd _ hlastMemRest
          rw [hikLast] at hlt
          simp only [decide_eq_false_iff_not]
          omega
        · have hrdb : r ∈ env.db := hmemDbRest r (hsubTk hrtk)
          rw [hpassInt r hrdb]
          have hle : ikey idField r ≤ ikey idField (tk.getLast htk) :=
            ikey_le_getLast idField tk htk hpwTk r hrtk
          rw [hikLast] at hle
          simp only [decide_eq_false_iff_not]
          omega
      have hf2 : dr.length < fuel := by
        rw [hdrdef]
        simp only [List.length_drop, List.length_cons]
        simp only [List.length_cons] at hf
        omega
      obtain ⟨st', heq, hrec⟩ := ih (done ++ tk) dr (advanceState headers idField st tk htk)
        hdb2 hmore2 hrows2 hpassR2 hpassD2 hf2
      refine ⟨st', ?_, ?_⟩
      · rw [hstep]
        exact heq
      · rw [hrec]
        simp only [advanceState]
        rw [List.append_assoc, ← List.map_append, htkdr]

/-- C1: for every table with a unique, strictly ascending integer key
column, when every batch fetch succeeds and the page size is between 1
and the row count, the export writes exactly one data record per table
row, in table (hence ascending key) order — no duplicates, no gaps —
and returns the unmarked (complete) filename. -/
theorem c1_complete_export (env : ExportEnv) (fuel : Nat)
    (h1 : env.firstRowFails = false) (h2 : env.countFails = false)
    (h3 : env.db ≠ [])
    (Hnf : ∀ n, env.batchFails n = false)
    (Hps : 1 ≤ env.pageSize) (HpsN : env.pageSize ≤ env.db.length)
    (Hkeys : ∀ r ∈ env.db, isIntVal (r.lookup (idFieldOf env)) = true)
    (Hsorted : env.db.Pairwise (keyLt (idFieldOf env)))
    (hfuel : env.db.length < fuel) :
    export_database_paginated env fuel =
      .ok (completeFilename env.tableName env.date)
        (headersOf env :: env.db.map (recordOf (headersOf env))) ∧
    (env.db.map (recordOf (headersOf env))).length = env.db.length ∧
    completeFilename env.tableName env.date ≠ flaggedFilename env.tableName env.date := by
  obtain ⟨st', heq, hrec⟩ := exportLoop_no_fail env (idFieldOf env) (headersOf env)
    Hnf Hps Hkeys Hsorted fuel [] env.db initState (by simp) rfl rfl
    (fun r _ => rfl) (fun r hr => absurd hr (List.not_mem_nil r)) hfuel
  refine ⟨?_, by simp, completeFilename_ne_flaggedFilename _ _⟩
  unfold export_database_paginated
  rw [if_neg (by simp [h1]), if_neg h3, if_neg (by simp [h2])]
  have hrun : exportRun env fuel = .finished st' := heq
  rw [hrun]
  simp only [finishLoop]
  rw [hrec]
  simp [initState]

/-- Witness for C1: the concrete three-row table with keys 1,2,3 and
page size 2 satisfies every hypothesis, and the export returns the
complete filename with the three records in key order. -/
theorem c1_complete_export_witness :
    (envC1w.firstRowFails = false ∧ envC1w.countFails = false ∧ envC1w.db ≠ [] ∧
     (∀ n, envC1w.batchFails n = false) ∧
     1 ≤ envC1w.pageSize ∧ envC1w.pageSize ≤ envC1w.db.length ∧
     (∀ r ∈ envC1w.db, isIntVal (r.lookup (idFieldOf envC1w)) = true) ∧
     envC1w.db.Pairwise (keyLt (idFieldOf envC1w)) ∧ envC1w.db.length < 5) ∧
    export_database_paginated envC1w 5 =
      .ok (completeFilename envC1w.tableName envC1w.date)
        (headersOf envC1w :: envC1w.db.map (recordOf (headersOf envC1w))) :=
  ⟨⟨rfl, rfl, by decide, fun _ => rfl, by decide, by decide, by decide, by decide, by decide⟩,
   (c1_complete_export envC1w 5 rfl rfl (by decide) (fun _ => rfl) (by decide) (by decide)
     (by decide) (by decide) (by decide)).1⟩

/-- C9: on a non-empty table the header is the ordered key list of the
first row ever seen, written exactly once as the first record of the
file, and every data record is the header-aligned rendering of some
table row — so it has exactly the header's column count, in header
order, with missing columns rendered empty and extra columns
dropped. -/
theorem c9_header_and_records (env : ExportEnv) (fuel : Nat)
    (h1 : env.firstRowFails = false) (h2 : env.countFails = false)
    (h3 : env.db ≠ []) (fn : String) (lines : List (List String))
    (hrun : export_database_paginated env fuel = .ok fn lines) :
    headersOf env = (env.db.headD []).map Prod.fst ∧
    (∃ recs, lines = headersOf env :: recs ∧
      ∀ q ∈ recs, ∃ r, r ∈ env.db ∧ q = recordOf (headersOf env) r) ∧
    (∀ l ∈ lines, l.length = (headersOf env).length) := by
  unfold export_database_paginated at hrun
  rw [if_neg (by simp [h1]), if_neg h3, if_neg (by simp [h2])] at hrun
  refine ⟨rfl, ?_⟩
  have hmain : ∃ st', lines = headersOf env :: st'.records ∧
      (exportLoop env (idFieldOf env) (headersOf env) env.db.length fuel initState
          = .finished st' ∨
        exportLoop env (idFieldOf env) (headersOf env) env.db.length fuel initState
          = .raised st') := by
    cases hout : exportRun env fuel with
    | finished st' =>
      rw [hout] at hrun
      simp only [finishLoop, ExportOutcome.ok.injEq] at hrun
      exact ⟨st', hrun.2.symm, Or.inl hout⟩
    | raised st' =>
      rw [hout] at hrun
      simp only [finishLoop, ExportOutcome.ok.injEq] at hrun
      exact ⟨st', hrun.2.symm, Or.inr hout⟩
    | fuelOut =>
      rw [hout] at hrun
      simp [finishLoop] at hrun
  obtain ⟨st', hlines, hout⟩ := hmain
  have hsrc : ∀ q ∈ st'.records, ∃ r, r ∈ env.db ∧ q = recordOf (headersOf env) r := by
    intro q hq
    rcases exportLoop_records_src env (idFieldOf env) (headersOf env) env.db.length
        fuel initState st' hout q hq with hmem | hex
    · exact absurd hmem (List.not_mem_nil q)
    · exact hex
  refine ⟨⟨st'.records, hlines, hsrc⟩, ?_⟩
  intro l hl
  rw [hlines] at hl
  rcases List.mem_cons.mp hl with rfl | hl'
  · rfl
  · obtain ⟨r, _, hq⟩ := hsrc l hl'
    rw [hq]
    exact recordOf_length _ _

/-- Witness for C9: the healthy three-row export returns the header
line `["id"]` followed by the three records, and the conclusion holds
there. -/
theorem c9_header_and_records_witness :
    (envGoodExport.firstRowFails = false ∧ envGoodExport.countFails = false ∧
     envGoodExport.db ≠ [] ∧
     export_database_paginated envGoodExport 5 =
       .ok (completeFilename "orgs_db" "2026-10-12") [["id"], ["1"], ["2"], ["3"]]) ∧
    (headersOf envGoodExport = (envGoodExport.db.headD []).map Prod.fst ∧
     (∃ recs, ([["id"], ["1"], ["2"], ["3"]] : List (List String))
          = headersOf envGoodExport :: recs ∧
       ∀ q ∈ recs, ∃ r, r ∈ envGoodExport.db ∧ q = recordOf (headersOf envGoodExport) r) ∧
     (∀ l ∈ ([["id"], ["1"], ["2"], ["3"]] : List (List String)),
       l.length = (headersOf envGoodExport).length)) :=
  ⟨⟨rfl, rfl, by decide, by decide⟩,
   c9_header_and_records envGoodExport 5 rfl rfl (by decide)
     (completeFilename "orgs_db" "2026-10-12") [["id"], ["1"], ["2"], ["3"]] (by decide)⟩

/-- Counterexample to C2: in `envC2` the second fetch attempt fails
after one row was written (the trace shows the failed attempt at
cursor 1 being issued), every other batch succeeds, and the export
returns the unmarked (complete) filename with all three rows — it
reports Complete after a batch failure, and no partial marker
appears. -/
theorem c2_counterexample :
    envC2.batchFails 1 = true ∧
    loopTrace (exportRun envC2 10) =
      [none, some (Value.int 1), some (Value.int 1), some (Value.int 2)] ∧
    export_database_paginated envC2 10 =
      .ok (completeFilename "orgs_db" "2026-10-12") [["id"], ["1"], ["2"], ["3"]] ∧
    completeFilename "orgs_db" "2026-10-12" ≠ flaggedFilename "orgs_db" "2026-10-12" := by
  refine ⟨rfl, by decide, by decide, ?_⟩
  decide

/-- C2 as amended: a batch failure after K > 0 written rows does not
abort the loop and keeps the accumulated records, but it is not
recorded anywhere: whenever the loop afterwards terminates normally,
the export returns the unmarked (complete) filename with at least
those K rows; the partial-marked filename arises only when an
exception escapes the loop. -/
theorem c2_amended_failure_reports_complete (env : ExportEnv) (idField : String)
    (headers : List String) (totalCount fuel : Nat) (st : LoopState)
    (hmore : st.moreData = true) (hlt : st.rowsExported < totalCount)
    (hfail : env.batchFails st.attempt = true) (hK : 0 < st.rowsExported) :
    exportLoop env idField headers totalCount (fuel + 1) st =
      exportLoop env idField headers totalCount fuel (degradeState st) ∧
    (degradeState st).records = st.records ∧
    (∀ st₂,
      exportLoop env idField headers totalCount fuel (degradeState st) = .finished st₂ →
      finishLoop env headers (.finished st₂) =
        .ok (completeFilename env.tableName env.date) (headers :: st₂.records) ∧
      st.records.length ≤ st₂.records.length) ∧
    completeFilename env.tableName env.date ≠ flaggedFilename env.tableName env.date := by
  refine ⟨?_, rfl, ?_, completeFilename_ne_flaggedFilename _ _⟩
  · rw [exportLoop_succ, if_pos ⟨hmore, hlt⟩, if_pos hfail, if_pos hK]
  · intro st₂ hfin
    refine ⟨rfl, ?_⟩
    have hmono := exportLoop_records_mono env idField headers totalCount fuel _ _ hfin
    simpa [degradeState] using hmono

/-- Witness for the amended C2, at the state of `envC2`'s export just
before its failing second fetch attempt. -/
theorem c2_amended_failure_reports_complete_witness :
    (stC2.moreData = true ∧ stC2.rowsExported < 3 ∧
     envC2.batchFails stC2.attempt = true ∧ 0 < stC2.rowsExported) ∧
    (exportLoop envC2 "id" ["id"] 3 (8 + 1) stC2 =
      exportLoop envC2 "id" ["id"] 3 8 (degradeState stC2) ∧
    (degradeState stC2).records = stC2.records ∧
    (∀ st₂, exportLoop envC2 "id" ["id"] 3 8 (degradeState stC2) = .finished st₂ →
      finishLoop envC2 ["id"] (.finished st₂) =
        .ok (completeFilename envC2.tableName envC2.date) (["id"] :: st₂.records) ∧
      stC2.records.length ≤ st₂.records.length) ∧
    completeFilename envC2.tableName envC2.date ≠ flaggedFilename envC2.tableName envC2.date) :=
  ⟨⟨rfl, by decide, by decide, by decide⟩,
   c2_amended_failure_reports_complete envC2 "id" ["id"] 3 8 stC2 rfl (by decide)
     (by decide) (by decide)⟩

/-- Counterexample to C3: in `envC3` the very first batch fetch fails
with zero rows written, yet the export does not propagate the error to
the caller: the header-only file (created before the loop) is renamed
with the partial marker and that filename is returned. -/
theorem c3_counterexample :
    export_database_paginated envC3 10 =
      .ok (flaggedFilename "orgs_db" "2026-10-12") [["id"]] ∧
    export_database_paginated envC3 10 ≠ .err := by
  refine ⟨by decide, by decide⟩

/-- C3 as amended: when a batch fetch fails with zero rows written the
export stops at once, but instead of propagating the error it returns
the partial-marked filename of the header-only file (no data records);
no valid non-partial artifact remains. The error itself propagates to
the caller only when the failure precedes the creation of the output
file (first-row probe or row-count call). -/
theorem c3_amended_zero_progress_returns_flagged (env : ExportEnv) (fuel : Nat)
    (h1 : env.firstRowFails = false) (h2 : env.countFails = false)
    (h3 : env.db ≠ []) (hfail : env.batchFails 0 = true) (hfuel : 0 < fuel) :
    export_database_paginated env fuel =
      .ok (flaggedFilename env.tableName env.date) [headersOf env] ∧
    export_database_paginated env fuel ≠ .err ∧
    flaggedFilename env.tableName env.date ≠ completeFilename env.tableName env.date := by
  obtain ⟨f, rfl⟩ : ∃ f, fuel = f + 1 := ⟨fuel - 1, by omega⟩
  have hc : initState.moreData = true ∧ initState.rowsExported < env.db.length := by
    refine ⟨rfl, ?_⟩
    have := List.length_pos.mpr h3
    simpa [initState] using this
  have hb : env.batchFails initState.attempt = true := hfail
  have hstep : exportRun env (f + 1) = .raised (abortState initState) := by
    unfold exportRun
    rw [exportLoop_succ, if_pos hc, if_pos hb,
      if_neg (show ¬0 < initState.rowsExported by simp [initState])]
  have hres : export_database_paginated env (f + 1) =
      .ok (flaggedFilename env.tableName env.date) [headersOf env] := by
    unfold export_database_paginated
    rw [if_neg (by simp [h1]), if_neg h3, if_neg (by simp [h2]), hstep]
    simp [finishLoop, abortState, initState]
  refine ⟨hres, ?_, (completeFilename_ne_flaggedFilename _ _).symm⟩
  rw [hres]
  simp

/-- Witness for the amended C3 at `envC3`. -/
theorem c3_amended_zero_progress_returns_flagged_witness :
    (envC3.firstRowFails = false ∧ envC3.countFails = false ∧ envC3.db ≠ [] ∧
     envC3.batchFails 0 = true ∧ 0 < 10) ∧
    (export_database_paginated envC3 10 =
      .ok (flaggedFilename envC3.tableName envC3.date) [headersOf envC3] ∧
    export_database_paginated envC3 10 ≠ .err ∧
    flaggedFilename envC3.tableName envC3.date ≠ completeFilename envC3.tableName envC3.date) :=
  ⟨⟨rfl, rfl, by decide, rfl, by decide⟩,
   c3_amended_zero_progress_returns_flagged envC3 10 rfl rfl (by decide) rfl (by decide)⟩

/-- Counterexample to C4: in `envC2` the second fetch attempt (cursor
1) fails after one row was written, and the next fetch re-issues the
very same cursor predicate (trace entries 1 and 2 are both cursor 1) —
the session does not advance past the failed batch with a substitute
token. -/
theorem c4_counterexample :
    envC2.batchFails 1 = true ∧
    loopTrace (exportRun envC2 10) =
      [none, some (Value.int 1), some (Value.int 1), some (Value.int 2)] ∧
    (loopTrace (exportRun envC2 10)).get? 1 = (loopTrace (exportRun envC2 10)).get? 2 := by
  refine ⟨rfl, by decide, by decide⟩

/-- C4 as amended: on a batch failure with at least one row written
the session does not advance past the failed batch — when the last
cursor value is known it retries the next fetch with exactly the same
cursor predicate; only when no cursor value is available (the key was
missing from the last accepted row) does it substitute the best-effort
token `approximate_batch_{page}`. -/
theorem c4_amended_cursor_retried (env : ExportEnv) (idField : String)
    (headers : List String) (totalCount fuel : Nat) (st : LoopState)
    (hmore : st.moreData = true) (hlt : st.rowsExported < totalCount)
    (hfail : env.batchFails st.attempt = true) (hK : 0 < st.rowsExported) :
    exportLoop env idField headers totalCount (fuel + 1) st =
      exportLoop env idField headers totalCount fuel (degradeState st) ∧
    (∀ v, st.lastId = some v → (degradeState st).lastId = some v) ∧
    (st.lastId = none →
      (degradeState st).lastId =
        some (.str ("approximate_batch_" ++ toString (st.page + 1)))) ∧
    (degradeState st).cursorTrace = st.cursorTrace ++ [st.lastId] := by
  refine ⟨?_, ?_, ?_, rfl⟩
  · rw [exportLoop_succ, if_pos ⟨hmore, hlt⟩, if_pos hfail, if_pos hK]
  · intro v hv
    simp [degradeState, hv]
  · intro hv
    simp [degradeState, hv]

/-- Witness for the amended C4 at the same pre-failure state. -/
theorem c4_amended_cursor_retried_witness :
    (stC2.moreData = true ∧ stC2.rowsExported < 3 ∧
     envC2.batchFails stC2.attempt = true ∧ 0 < stC2.rowsExported) ∧
    (exportLoop envC2 "id" ["id"] 3 (8 + 1) stC2 =
      exportLoop envC2 "id" ["id"] 3 8 (degradeState stC2) ∧
    (∀ v, stC2.lastId = some v → (degradeState stC2).lastId = some v) ∧
    (stC2.lastId = none →
      (degradeState stC2).lastId =
        some (.str ("approximate_batch_" ++ toString (stC2.page + 1)))) ∧
    (degradeState stC2).cursorTrace = stC2.cursorTrace ++ [stC2.lastId]) :=
  ⟨⟨rfl, by decide, by decide, by decide⟩,
   c4_amended_cursor_retried envC2 "id" ["id"] 3 8 stC2 rfl (by decide) (by decide)
     (by decide)⟩

/-- Counterexample to C5: when the first table's export raises, the
weekly run stops there — the second table is never attempted, so not
every configured table gets its own per-table outcome. -/
theorem c5_counterexample :
    weekly_backup envBadExport envGoodExport upOk upOk 10 =
      ⟨true, false, false, false, true⟩ ∧
    (weekly_backup envBadExport envGoodExport upOk upOk 10).orgsExportAttempted = false := by
  refine ⟨by decide, by decide⟩

/-- C5 as amended: the weekly run is a single try-block, so the first
raised failure of any table's export or upload stops the whole run and
re-raises — each step is attempted exactly when every earlier step
returned normally. -/
theorem c5_amended_first_failure_stops_run (leadsEnv orgsEnv : ExportEnv)
    (leadsUp orgsUp : UploadEnv) (fuel : Nat) :
    (weekly_backup leadsEnv orgsEnv leadsUp orgsUp fuel).leadsExportAttempted = true ∧
    (weekly_backup leadsEnv orgsEnv leadsUp orgsUp fuel).orgsExportAttempted =
      !(outcomeRaised (export_database_paginated leadsEnv fuel)) ∧
    (weekly_backup leadsEnv orgsEnv leadsUp orgsUp fuel).leadsUploadAttempted =
      (!(outcomeRaised (export_database_paginated leadsEnv fuel)) &&
        !(outcomeRaised (export_database_paginated orgsEnv fuel))) ∧
    (weekly_backup leadsEnv orgsEnv leadsUp orgsUp fuel).orgsUploadAttempted =
      (!(outcomeRaised (export_database_paginated leadsEnv fuel)) &&
        !(outcomeRaised (export_database_paginated orgsEnv fuel)) &&
        !(uploadRaised (upload_to_drive leadsUp))) ∧
    (weekly_backup leadsEnv orgsEnv leadsUp orgsUp fuel).raised =
      (outcomeRaised (export_database_paginated leadsEnv fuel) ||
        outcomeRaised (export_database_paginated orgsEnv fuel) ||
        uploadRaised (upload_to_drive leadsUp) ||
        uploadRaised (upload_to_drive orgsUp)) := by
  cases hr1 : outcomeRaised (export_database_paginated leadsEnv fuel) <;>
    cases hr2 : outcomeRaised (export_database_paginated orgsEnv fuel) <;>
      cases hr3 : uploadRaised (upload_to_drive leadsUp) <;>
        cases hr4 : uploadRaised (upload_to_drive orgsUp) <;>
          simp [weekly_backup, hr1, hr2, hr3, hr4]

/-- C6: the exported data file is removed from disk if and only if the
upload call returned success; on any upload failure (including failed
credential materialization) the local file is left in place. -/
theorem c6_local_file_deleted_iff_upload_success (env : UploadEnv) :
    dataOnDiskAfter (upload_to_drive env) = uploadRaised (upload_to_drive env) := by
  obtain ⟨d, u⟩ := env
  cases d <;> cases u <;> rfl

/-- Counterexample to C7: when credential materialization succeeds and
the upload call raises, `credentials.json` is left on disk — the
cleanup is not performed on the error path. -/
theorem c7_counterexample :
    upload_to_drive ⟨false, true⟩ = .err true true ∧
    credsOnDiskAfter (upload_to_drive ⟨false, true⟩) = true ∧
    uploadRaised (upload_to_drive ⟨false, true⟩) = true := by
  refine ⟨rfl, rfl, rfl⟩

/-- C7 as amended: the credentials file is deleted only on the success
path — it remains on disk exactly when it was materialized and the
upload call then raised; there is no cleanup guarantee on the error
path. -/
theorem c7_amended_creds_cleanup_success_only (env : UploadEnv) :
    credsOnDiskAfter (upload_to_drive env) = (!env.decodeFails && env.uploadFails) := by
  obtain ⟨d, u⟩ := env
  cases d <;> cases u <;> rfl

/-- Counterexample to C8: in `envC8` only the row-count call fails,
yet the export propagates the error to the caller instead of
continuing with an unknown total. -/
theorem c8_counterexample :
    envC8.countFails = true ∧
    envC8.firstRowFails = false ∧
    envC8.batchFails 0 = false ∧
    export_database_paginated envC8 10 = .err := by
  refine ⟨rfl, rfl, rfl, by decide⟩

/-- C8 as amended: failure of the initial row-count call aborts the
export — the exception escapes before the output file is created, so
it propagates to the caller; no rows are fetched and there is no
unknown-total mode. -/
theorem c8_amended_count_failure_aborts (env : ExportEnv) (fuel : Nat)
    (h1 : env.firstRowFails = false) (h3 : env.db ≠ [])
    (hc : env.countFails = true) :
    export_database_paginated env fuel = .err := by
  unfold export_database_paginated
  rw [if_neg (by simp [h1]), if_neg h3, if_pos (by simp [hc])]

/-- Witness for the amended C8 at `envC8`. -/
theorem c8_amended_count_failure_aborts_witness :
    (envC8.firstRowFails = false ∧ envC8.db ≠ [] ∧ envC8.countFails = true) ∧
    export_database_paginated envC8 10 = .err :=
  ⟨⟨rfl, by decide, rfl⟩, c8_amended_count_failure_aborts envC8 10 rfl (by decide) rfl⟩

set_option maxRecDepth 400000 in
/-- Counterexample to C10: the 250-row scenario with page size 100 and
no failures issues exactly three batch fetches (cursors unset, 100,
200) and no fourth, terminating empty-batch fetch — the loop exits
because the number of exported rows reaches the row count. -/
theorem c10_counterexample :
    loopTrace (exportRun env250 10) =
      [none, some (Value.int 100), some (Value.int 200)] ∧
    (loopTrace (exportRun env250 10)).length = 3 := by
  constructor
  · decide
  · decide

set_option maxRecDepth 400000 in
/-- C10 as amended: the 250-row scenario issues exactly the three
batch fetches at cursors unset, 100 and 200 (no terminating
empty-batch fetch), and the result is Complete — the unmarked filename
— with exactly 250 data records, one per key in ascending order. -/
theorem c10_amended_three_fetches_complete :
    export_database_paginated env250 10 =
      .ok (completeFilename "orgs_db" "2026-10-12") (["id"] :: db250.map (recordOf ["id"])) ∧
    (db250.map (recordOf ["id"])).length = 250 ∧
    loopTrace (exportRun env250 10) =
      [none, some (Value.int 100), some (Value.int 200)] ∧
    completeFilename "orgs_db" "2026-10-12" ≠ flaggedFilename "orgs_db" "2026-10-12" := by
  refine ⟨by decide, by decide, by decide, by decide⟩

end SupabaseAutomation
